import Mathlib

/-!
Verification of the DreamWeaver client core (audio capture, PCM decode/playback,
dream-session orchestration, chat continuation) against its design spec.

The TypeScript sources are shallowly embedded:
  pure helpers become Lean functions on `List Char` / `List Nat` / `ℚ`;
  byte values are `Nat` (with `% 256` where the source reads typed-array cells);
  the exact IEEE floats of the source are represented by `ℚ` (every value the
  source produces — an int16 divided by 32768, a byte average times 2.5 — is a
  dyadic rational, represented exactly by both float64/float32 and `ℚ`);
  fallible platform calls become `Option` / `Except`;
  React state updates become explicit state-passing over record types;
  remote collaborators (the AI client, the audio device, the chat transport)
  become explicit environment parameters enumerating their observable outcomes.
-/

namespace Dream

/-! ### Platform model: `atob` (WHATWG forgiving-base64 decode)

`decodeBase64` in src/services/geminiService.ts calls the browser builtin
`atob` and copies each char code of the resulting binary string into a
`Uint8Array`. `atob` is modelled by the WHATWG forgiving-base64 algorithm:
strip ASCII whitespace, drop trailing `=` padding when the length is a
multiple of 4, reject a remaining length of 4k+1 and any character outside
the base64 alphabet, then decode 6-bit groups. `none` models the
`InvalidCharacterError` exception. -/

def b64Val (c : Char) : Option Nat :=
  if 'A' ≤ c ∧ c ≤ 'Z' then some (c.toNat - 65)
  else if 'a' ≤ c ∧ c ≤ 'z' then some (c.toNat - 97 + 26)
  else if '0' ≤ c ∧ c ≤ '9' then some (c.toNat - 48 + 52)
  else if c = '+' then some 62
  else if c = '/' then some 63
  else none

def isB64Whitespace (c : Char) : Bool :=
  c = ' ' ∨ c = '\t' ∨ c = '\n' ∨ c = '\r' ∨ c = '\x0c'

def stripB64Padding (data : List Char) : List Char :=
  if data.length % 4 = 0 then
    match data.reverse with
    | '=' :: '=' :: rest => rest.reverse
    | '=' :: rest => rest.reverse
    | _ => data
  else data

/-- Decode a list of 6-bit groups into bytes: every 4 groups yield 3 bytes; a
trailing pair yields 1 byte (top 8 of 12 bits), a trailing triple yields
2 bytes (top 16 of 18 bits); a single trailing group is malformed. -/
def sextetsToBytes : List Nat → Option (List Nat)
  | [] => some []
  | [_] => none
  | [a, b] => some [a * 4 + b / 16]
  | [a, b, c] => some [a * 4 + b / 16, b % 16 * 16 + c / 4]
  | a :: b :: c :: d :: rest =>
    (sextetsToBytes rest).map
      (fun bs => (a * 4 + b / 16) :: (b % 16 * 16 + c / 4) :: (c % 4 * 64 + d) :: bs)

def atobModel (s : String) : Option (List Nat) := do
  let data := s.toList.filter (fun c => !isB64Whitespace c)
  let data := stripB64Padding data
  if data.length % 4 = 1 then none
  else
    let sextets ← data.mapM b64Val
    sextetsToBytes sextets

/-- Model of `decodeBase64` (src/services/geminiService.ts, lines 150-158):
`atob(base64)` produces a binary string, and the loop stores
`binaryString.charCodeAt(i)` — the i-th byte — into `bytes[i]`. The result is
therefore exactly the decoded byte sequence; `none` models `atob` throwing. -/
def decodeBase64 (base64 : String) : Option (List Nat) :=
  atobModel base64

/-! ### PCM decoding (`decodePCM`) -/

/-- Reinterpretation of two bytes as one little-endian signed 16-bit integer,
as the `Int16Array` view does: `lo` is the byte at the lower address. -/
def toInt16 (lo hi : Nat) : Int :=
  if lo % 256 + 256 * (hi % 256) < 32768 then (lo % 256 + 256 * (hi % 256) : Int)
  else (lo % 256 + 256 * (hi % 256) : Int) - 65536

/-- The `Int16Array(data.buffer, data.byteOffset, data.byteLength / 2)` view
(src/services/geminiService.ts, line 166): JavaScript's `ToIndex` truncates the
fractional length `byteLength / 2`, so the view holds `⌊byteLength / 2⌋`
little-endian samples and a trailing odd byte is dropped without error. -/
def bytesToInt16LE : List Nat → List Int
  | lo :: hi :: rest => toInt16 lo hi :: bytesToInt16LE rest
  | _ => []

/-- One channel of the decoded `AudioBuffer`:
`channelData[i] = dataInt16[i * numChannels + channel] / 32768.0`
(src/services/geminiService.ts, lines 171-176), represented exactly in `ℚ`. -/
def pcmFrames (dataInt16 : List Int) (numChannels channel frameCount : Nat) : List ℚ :=
  (List.range frameCount).map
    (fun i => ((dataInt16.getD (i * numChannels + channel) 0 : Int) : ℚ) / 32768)

/-- Model of `decodePCM` (src/services/geminiService.ts, lines 160-178):
`dataInt16` is the truncating `Int16Array` view, `frameCount` its length
divided by `numChannels`, and `ctx.createBuffer(numChannels, frameCount,
sampleRate)` throws `NotSupportedError` (Web Audio §BaseAudioContext) when any
argument is zero — modelled by the error branch. On success the returned
buffer holds one normalized sample list per channel. The source's call site
uses the defaults `sampleRate = 24000`, `numChannels = 1`. -/
def decodePCM (data : List Nat) (numChannels : Nat) : Except String (List (List ℚ)) :=
  if numChannels = 0 ∨ (bytesToInt16LE data).length / numChannels = 0 then
    Except.error "NotSupportedError"
  else
    Except.ok ((List.range numChannels).map
      (fun channel =>
        pcmFrames (bytesToInt16LE data) numChannels channel
          ((bytesToInt16LE data).length / numChannels)))

/-! ### Audio capture (DreamRecorder, src/components/DreamAnalysis.tsx) -/

/-- A finalized recording: the byte content and MIME type of the `Blob`. -/
structure BlobModel where
  bytes : List Nat
  type : String
deriving DecidableEq

/-- Model of `mediaRecorder.ondataavailable` (DreamRecorder, lines 212-214): a
fragment is appended to the chunk buffer only when `e.data.size > 0`. -/
def ondataavailable (chunks : List (List Nat)) (data : List Nat) : List (List Nat) :=
  if data.length > 0 then chunks ++ [data] else chunks

/-- Model of the finalization in `mediaRecorder.onstop` (lines 216-226): the
buffered chunks are concatenated, in arrival order, into one `Blob` tagged
`audio/webm`. A `Blob` built from zero parts is the valid empty blob. -/
def onstop (chunks : List (List Nat)) : BlobModel :=
  { bytes := chunks.flatten, type := "audio/webm" }

/-- One capture session: `startRecording` resets the chunk buffer to `[]`
(line 210), every fragment the recorder emits is fed to `ondataavailable` in
arrival order, and stopping finalizes through `onstop`. -/
def captureSession (fragments : List (List Nat)) : BlobModel :=
  onstop (fragments.foldl ondataavailable [])

/-- Model of the volume computation in `DreamRecorder.visualize` (lines
173-187): `dataArray` holds the byte frequency data (each cell 0-255),
`avg = sum / dataArray.length`, and the published volume is
`Math.min(100, avg * 2.5)`, represented exactly in `ℚ`. -/
def visualizeVolume (dataArray : List Nat) : ℚ :=
  min 100 (((dataArray.foldl (· + ·) 0 : Nat) : ℚ) / (dataArray.length : ℚ) * (5 / 2))

/-! ### PCM playback (`playDreamSpeech`, src/services/geminiService.ts) -/

/-- Observable resource state of one `playDreamSpeech` call: the source node's
start/stop flags, whether the `AudioContext` was closed, and how many times
the caller's `onEnded` callback has run. -/
structure PlaybackState where
  sourceStarted : Bool
  sourceStopped : Bool
  ctxClosed : Bool
  onEndedCount : Nat
deriving DecidableEq

/-- Model of `source.stop()`: per Web Audio it throws `InvalidStateError` when
`start()` was never called, and otherwise stops the source (calling it again
after it already stopped is permitted and keeps it stopped). -/
def sourceStopCall (s : PlaybackState) : Except String PlaybackState :=
  if s.sourceStarted then Except.ok { s with sourceStopped := true }
  else Except.error "InvalidStateError"

/-- Model of `ctx.close()`: closing an already-closed context merely rejects
the returned promise; there is no synchronous throw, and the context stays
closed. -/
def ctxCloseCall (s : PlaybackState) : PlaybackState :=
  { s with ctxClosed := true }

/-- The two stop functions `playDreamSpeech` can return: the real closure of
the success path (lines 234-241) and the no-op `() => \x7b\x7d` returned by the
catch branch (line 246). -/
inductive StopKind
  | noop
  | real
deriving DecidableEq

/-- Effect of invoking a returned stop function on the playback state: the
no-op does nothing; the real closure runs `source.stop()` then `ctx.close()`
inside a `try` whose `catch` ignores cleanup errors, so a thrown
`InvalidStateError` skips the close and is swallowed. Totality of this
function is the model of "invoking stop never throws to the caller". -/
def applyStop : StopKind → PlaybackState → PlaybackState
  | StopKind.noop, s => s
  | StopKind.real, s =>
    match sourceStopCall s with
    | Except.ok s1 => ctxCloseCall s1
    | Except.error _ => s

/-- Model of the `source.onended` handler (lines 227-230): natural completion
invokes `onEnded()` and then closes the context. -/
def naturalEnd (s : PlaybackState) : PlaybackState :=
  { s with onEndedCount := s.onEndedCount + 1, ctxClosed := true }

/-- Outcome of the device-acquisition steps `createBufferSource` / `connect` /
`start`, which belong to the platform: either they all succeed or one throws. -/
inductive DeviceStep
  | ok
  | fail
deriving DecidableEq

/-- The `try` body of `playDreamSpeech` (lines 219-243): base64 decode (atob
may throw), PCM decode (buffer creation may throw), then source setup and
start. On success the source is started and the real stop closure is
produced. -/
def playBody (base64Audio : String) (device : DeviceStep) (s0 : PlaybackState) :
    Except String (PlaybackState × StopKind) :=
  match decodeBase64 base64Audio with
  | none => Except.error "InvalidCharacterError"
  | some pcmData =>
    match decodePCM pcmData 1 with
    | Except.error e => Except.error e
    | Except.ok _ =>
      match device with
      | DeviceStep.fail => Except.error "DeviceError"
      | DeviceStep.ok => Except.ok ({ s0 with sourceStarted := true }, StopKind.real)

/-- Model of `playDreamSpeech` (lines 214-248). The fresh context starts
unclosed with no callback runs; the catch branch (lines 244-247) invokes
`onEnded()`, closes the context and returns the no-op stop function. The
model being a total function is the embedding of "the catch keeps every
internal failure from propagating to the caller". -/
def playDreamSpeech (base64Audio : String) (device : DeviceStep) :
    PlaybackState × StopKind :=
  match playBody base64Audio device
      { sourceStarted := false, sourceStopped := false, ctxClosed := false,
        onEndedCount := 0 } with
  | Except.ok r => r
  | Except.error _ =>
    ({ sourceStarted := false, sourceStopped := false, ctxClosed := true,
       onEndedCount := 1 }, StopKind.noop)

/-- Proposition that the decode stage of `playDreamSpeech` fails on the given
input: either `atob` rejects the base64, or `decodePCM` throws. -/
def decodeFails (base64Audio : String) : Prop :=
  decodeBase64 base64Audio = none ∨
    ∃ bytes, decodeBase64 base64Audio = some bytes ∧
      ∃ e, decodePCM bytes 1 = Except.error e

/-! ### Chat continuation (DreamChat, src/components/DreamChat.tsx) -/

inductive Role
  | user
  | model
deriving DecidableEq

/-- One turn of the chat transcript. -/
structure ChatMsg where
  role : Role
  text : String
deriving DecidableEq

/-- The fixed fallback apology appended by the catch branch of
`DreamChat.handleSend` (line 59). -/
def fallbackText : String := "抱歉，我在解读时遇到问题，请重试。"

/-- Model of JavaScript `String.prototype.trim` over the character list. -/
def jsTrim (s : String) : String :=
  String.mk (((s.toList.dropWhile Char.isWhitespace).reverse.dropWhile
    Char.isWhitespace).reverse)

/-- Observable behaviors of the chat transport for one `sendMessageStream`
call: `initError` models the awaited call itself rejecting before any stream
exists; `stream delivered failed` models an obtained stream that yields the
chunk texts `delivered` (each already the source's `chunk.text || ''`) and
then raises an error iff `failed` is true. -/
inductive Transport
  | initError
  | stream (delivered : List String) (failed : Bool)

/-- Model of `newHistory[newHistory.length - 1].text = fullResponse` (lines
53-57): replace the text of the last message, if any. -/
def setLastText : List ChatMsg → String → List ChatMsg
  | [], _ => []
  | [m], t => [{ m with text := t }]
  | m :: m2 :: rest, t => m :: setLastText (m2 :: rest) t

/-- Model of the `for await` loop (lines 48-58): each delivered chunk extends
`fullResponse` and rewrites the last message with the accumulated text. -/
def deliverChunks : List ChatMsg → String → List String → List ChatMsg
  | ms, _, [] => ms
  | ms, acc, c :: cs => deliverChunks (setLastText ms (acc ++ c)) (acc ++ c) cs

/-- Model of `DreamChat.handleSend` (lines 30-63), returning the transcript
after the send settles. Empty post-trim input returns unchanged (line 31).
Otherwise the trimmed user turn is appended (line 36); if `sendMessageStream`
itself rejects, the catch appends the fallback turn; if a stream is obtained,
an empty placeholder model turn is appended first (line 47), the chunks are
folded into it, and a mid-stream failure then appends the fallback turn. -/
def handleSend (messages : List ChatMsg) (input : String) (t : Transport) :
    List ChatMsg :=
  if jsTrim input = "" then messages
  else
    match t with
    | Transport.initError =>
      messages ++ [{ role := Role.user, text := jsTrim input }] ++
        [{ role := Role.model, text := fallbackText }]
    | Transport.stream delivered failed =>
      let ms3 := deliverChunks
        (messages ++ [{ role := Role.user, text := jsTrim input }] ++
          [{ role := Role.model, text := "" }]) "" delivered
      if failed then ms3 ++ [{ role := Role.model, text := fallbackText }] else ms3

/-! ### Dream session orchestrator (App, src/App.tsx) -/

/-- Parsed result of the analysis call (src/types). -/
structure DreamAnalysisResult where
  transcript : String
  interpretation : String
  imagePrompt : String
deriving DecidableEq

/-- The stored dream record (src/types); the timestamp is modelled as a
natural clock value supplied by the environment. -/
structure DreamData where
  transcript : String
  interpretation : String
  imageUrl : String
  imagePrompt : String
  timestamp : Nat
deriving DecidableEq

/-- A thrown JavaScript error as seen by the catch clause: only its `message`
is observed. -/
structure JSError where
  message : String
deriving DecidableEq

/-- The React state of `App` that `handleProcessDream` touches. -/
structure AppState where
  isProcessing : Bool
  error : Option String
  dreamData : Option DreamData
  loadingStep : String
deriving DecidableEq

def defaultErrorText : String := "处理您的梦境时发生错误。"

def loadingStepAnalyze : String := "正在转录和分析梦境..."

def loadingStepImage : String := "正在生成超现实主义视觉效果..."

/-- Model of `setError(err.message || "...")` (line 37): the JavaScript `||`
substitutes the default text when the message is the empty string (falsy). -/
def surfaceError (e : JSError) : String :=
  if e.message = "" then defaultErrorText else e.message

/-- Model of `App.handleProcessDream` (src/App.tsx, lines 14-42). The two
remote calls are environment parameters: `analyze` is the settled outcome of
`analyzeDreamAudio`, `genImage` the outcome of `generateDreamImage` as a
function of the analysis. The `finally` block clears the processing flag and
the loading step on every path. -/
def handleProcessDream (s : AppState) (now : Nat)
    (analyze : Except JSError DreamAnalysisResult)
    (genImage : DreamAnalysisResult → Except JSError String) : AppState :=
  let s1 := { s with isProcessing := true, error := none,
                     loadingStep := loadingStepAnalyze }
  let s2 :=
    match analyze with
    | Except.error e => { s1 with error := some (surfaceError e) }
    | Except.ok analysis =>
      match genImage analysis with
      | Except.error e =>
        { s1 with loadingStep := loadingStepImage, error := some (surfaceError e) }
      | Except.ok imageUrl =>
        { s1 with loadingStep := loadingStepImage,
                  dreamData := some { transcript := analysis.transcript,
                                      interpretation := analysis.interpretation,
                                      imageUrl := imageUrl,
                                      imagePrompt := analysis.imagePrompt,
                                      timestamp := now } }
  { s2 with isProcessing := false, loadingStep := "" }

/-! ### Speech-synthesis input shaping (`stripMarkdown`, `generateDreamSpeech`) -/

/-- Character class of the first replace `[#*_~]` plus backquote (regex
`[#*\x60_~]`): the markdown formatting characters that are removed. -/
def isFormattingChar (c : Char) : Bool :=
  c = '#' ∨ c = '*' ∨ c = Char.ofNat 96 ∨ c = '_' ∨ c = '~'

/-- First replace of `stripMarkdown` (line 145): delete every formatting
character. -/
def removeFormatting (s : List Char) : List Char :=
  s.filter (fun c => !isFormattingChar c)

/-- Matcher for one link occurrence at the current position, after a literal
`[` was seen: the regex continues with a nonempty run without `]`, then `](`,
a nonempty run without `)`, and `)`. Both runs are greedy; because each
excludes its closing character, no backtracking can succeed, so the maximal
runs are the only candidates. Returns the link text and the input remaining
after the match. -/
def splitLink (rest : List Char) : Option (List Char × List Char) :=
  if (rest.takeWhile (fun c => c ≠ ']')).isEmpty then none
  else
    match rest.dropWhile (fun c => c ≠ ']') with
    | ']' :: '(' :: rest2 =>
      if (rest2.takeWhile (fun c => c ≠ ')')).isEmpty then none
      else
        match rest2.dropWhile (fun c => c ≠ ')') with
        | ')' :: rest4 => some (rest.takeWhile (fun c => c ≠ ']'), rest4)
        | _ => none
    | _ => none

/-- Worker for the global link replace: scan left to right; at a `[` heading a
full link match, emit the link text and resume after the match, otherwise copy
the character. Each step consumes at least one input character, so the fuel —
initialized to the input length — never runs out; it only makes the recursion
structural. -/
def replaceLinksAux : Nat → List Char → List Char
  | 0, s => s
  | _ + 1, [] => []
  | fuel + 1, c :: rest =>
    if c = '[' then
      match splitLink rest with
      | some (label, rest4) => label ++ replaceLinksAux fuel rest4
      | none => c :: replaceLinksAux fuel rest
    else c :: replaceLinksAux fuel rest

/-- Second replace of `stripMarkdown` (line 146): the global replace of link
markup by its link text. -/
def replaceLinks (s : List Char) : List Char :=
  replaceLinksAux s.length s

/-- Worker for the third replace: a maximal run of newlines becomes one `。`;
the flag records whether the previous character belonged to a newline run. -/
def collapseNewlinesAux : List Char → Bool → List Char
  | [], _ => []
  | c :: rest, inRun =>
    if c = '\n' then
      if inRun then collapseNewlinesAux rest true
      else '。' :: collapseNewlinesAux rest true
    else c :: collapseNewlinesAux rest false

/-- Third replace of `stripMarkdown` (line 147): every newline run becomes the
pause character `。`. -/
def collapseNewlines (s : List Char) : List Char :=
  collapseNewlinesAux s false

/-- Model of `stripMarkdown` (src/services/geminiService.ts, lines 143-148):
the three global regex replaces in source order. Strings are modelled as
their character lists. -/
def stripMarkdown (text : List Char) : List Char :=
  collapseNewlines (replaceLinks (removeFormatting text))

/-- The text `generateDreamSpeech` (lines 184-189) actually submits to the
speech model: `stripMarkdown(text).substring(0, 3000)`. -/
def generateDreamSpeechText (text : List Char) : List Char :=
  (stripMarkdown text).take 3000

/-! ## Helper lemmas -/

theorem bytesToInt16LE_length : ∀ bs : List Nat, (bytesToInt16LE bs).length = bs.length / 2
  | [] => rfl
  | [_] => by norm_num [bytesToInt16LE]
  | _ :: _ :: rest => by
    simp only [bytesToInt16LE, List.length_cons, bytesToInt16LE_length rest]
    omega

theorem bytesToInt16LE_getD :
    ∀ (bs : List Nat) (i : Nat), i < bs.length / 2 →
      (bytesToInt16LE bs).getD i 0 = toInt16 (bs.getD (2 * i) 0) (bs.getD (2 * i + 1) 0)
  | [], i, h => by
    simp only [List.length_nil] at h
    omega
  | [_], i, h => by
    simp only [List.length_singleton] at h
    omega
  | lo :: hi :: rest, 0, _ => by
    simp [bytesToInt16LE]
  | lo :: hi :: rest, i + 1, h => by
    have h' : i < rest.length / 2 := by
      simp only [List.length_cons] at h
      omega
    have ih := bytesToInt16LE_getD rest i h'
    have e1 : 2 * (i + 1) = 2 * i + 1 + 1 := by omega
    have e2 : 2 * (i + 1) + 1 = 2 * i + 1 + 1 + 1 := by omega
    simp only [bytesToInt16LE, List.getD_cons_succ, e1, e2]
    exact ih

theorem toInt16_bounds (lo hi : Nat) : -32768 ≤ toInt16 lo hi ∧ toInt16 lo hi ≤ 32767 := by
  unfold toInt16
  have h1 : lo % 256 < 256 := Nat.mod_lt _ (by omega)
  have h2 : hi % 256 < 256 := Nat.mod_lt _ (by omega)
  split <;> omega

theorem getD_range_map {α : Type} (f : Nat → α) (n i : Nat) (d : α) (h : i < n) :
    ((List.range n).map f).getD i d = f i := by
  simp [List.getD_eq_getElem?_getD, List.getElem?_map, List.getElem?_range, h]

theorem pcmFrames_length (d : List Int) (nc ch n : Nat) : (pcmFrames d nc ch n).length = n := by
  simp [pcmFrames]

theorem pcmFrames_getD (d : List Int) (n i : Nat) (h : i < n) :
    (pcmFrames d 1 0 n).getD i 0 = ((d.getD i 0 : Int) : ℚ) / 32768 := by
  unfold pcmFrames
  rw [getD_range_map _ n i 0 h]
  norm_num

theorem decodePCM_ok_elim (bytes : List Nat) (out : List (List ℚ))
    (h : decodePCM bytes 1 = Except.ok out) :
    out = [pcmFrames (bytesToInt16LE bytes) 1 0 (bytes.length / 2)] ∧ 2 ≤ bytes.length := by
  have hlen := bytesToInt16LE_length bytes
  unfold decodePCM at h
  split at h
  · exact absurd h (by simp)
  next hcond =>
    rw [Except.ok.injEq] at h
    push_neg at hcond
    rw [Nat.div_one, hlen] at hcond
    constructor
    · rw [← h]
      simp [List.range_succ, Nat.div_one, hlen]
    · omega

theorem decodePCM_ok_intro (bytes : List Nat) (h2 : 2 ≤ bytes.length) :
    decodePCM bytes 1 = Except.ok [pcmFrames (bytesToInt16LE bytes) 1 0 (bytes.length / 2)] := by
  have hlen := bytesToInt16LE_length bytes
  unfold decodePCM
  rw [if_neg]
  · simp [List.range_succ, Nat.div_one, hlen]
  · push_neg
    rw [Nat.div_one, hlen]
    omega

/-! ## Claims about the PCM decode path (C1, C4, C5) -/

/-- C1, counterexample: the base64 input `AAAA` decodes to three bytes — an
odd byte length — yet the PCM decode step does not fail: it succeeds with one
frame, silently dropping the final incomplete sample. -/
theorem c1_counterexample :
    decodeBase64 "AAAA" = some [0, 0, 0] ∧ ([0, 0, 0] : List Nat).length % 2 = 1 ∧
      decodePCM [0, 0, 0] 1 = Except.ok [[0]] := by
  refine ⟨by rfl, by norm_num, ?_⟩
  norm_num [decodePCM, bytesToInt16LE, toInt16, pcmFrames, List.range_succ]

/-- C1, amended: for every base64 input whose decoded byte length is odd and
greater than one, the PCM decode step does not fail at all — it silently
truncates the final incomplete sample, producing `⌊byteLength / 2⌋` frames.
(The only failing odd input is a single byte, where the frame count is zero
and buffer creation throws `NotSupportedError`, not a decode error.) -/
theorem c1_theorem (base64 : String) (bytes : List Nat)
    (hdec : decodeBase64 base64 = some bytes)
    (hodd : bytes.length % 2 = 1) (hgt : 1 < bytes.length) :
    ∃ frames : List ℚ, decodePCM bytes 1 = Except.ok [frames] ∧
      frames.length = bytes.length / 2 := by
  refine ⟨pcmFrames (bytesToInt16LE bytes) 1 0 (bytes.length / 2), ?_, ?_⟩
  · exact decodePCM_ok_intro bytes (by omega)
  · exact pcmFrames_length _ _ _ _

/-- C1, witness for the amended statement at the three-byte input `AAAA`. -/
theorem c1_witness :
    ∃ frames : List ℚ, decodePCM [0, 0, 0] 1 = Except.ok [frames] ∧
      frames.length = ([0, 0, 0] : List Nat).length / 2 :=
  c1_theorem "AAAA" [0, 0, 0] (by rfl) (by norm_num) (by norm_num)

/-- C4, counterexample: the empty base64 string decodes to zero bytes — an
even byte length — but decode does not produce a zero-frame sample buffer:
`createBuffer` with frame count 0 throws `NotSupportedError`. -/
theorem c4_counterexample :
    decodeBase64 "" = some [] ∧ ([] : List Nat).length % 2 = 0 ∧
      decodePCM [] 1 = Except.error "NotSupportedError" := by
  refine ⟨rfl, rfl, ?_⟩
  norm_num [decodePCM, bytesToInt16LE]

/-- C4, amended: for every base64 string encoding an even, nonzero number of
bytes, decode produces a (single-channel) sample buffer of exactly
`byteLength / 2` frames, frame `i` being the little-endian signed 16-bit
integer of bytes `2i`, `2i+1` — a value in `[-32768, 32767]` — divided by
`32768.0`, a normalized amplitude in `[-1, 1]`. -/
theorem c4_theorem (base64 : String) (bytes : List Nat)
    (hdec : decodeBase64 base64 = some bytes)
    (heven : bytes.length % 2 = 0) (hne : bytes ≠ []) :
    ∃ frames : List ℚ,
      decodePCM bytes 1 = Except.ok [frames] ∧
      frames.length = bytes.length / 2 ∧
      ∀ i, i < bytes.length / 2 →
        frames.getD i 0 =
          ((toInt16 (bytes.getD (2 * i) 0) (bytes.getD (2 * i + 1) 0) : Int) : ℚ) / 32768 ∧
        -32768 ≤ toInt16 (bytes.getD (2 * i) 0) (bytes.getD (2 * i + 1) 0) ∧
        toInt16 (bytes.getD (2 * i) 0) (bytes.getD (2 * i + 1) 0) ≤ 32767 ∧
        -1 ≤ frames.getD i 0 ∧ frames.getD i 0 ≤ 1 := by
  have h0 : bytes.length ≠ 0 := fun hh => hne (List.length_eq_zero.mp hh)
  have h2 : 2 ≤ bytes.length := by omega
  refine ⟨pcmFrames (bytesToInt16LE bytes) 1 0 (bytes.length / 2),
    decodePCM_ok_intro bytes h2, pcmFrames_length _ _ _ _, ?_⟩
  intro i hi
  have hval : (pcmFrames (bytesToInt16LE bytes) 1 0 (bytes.length / 2)).getD i 0 =
      ((toInt16 (bytes.getD (2 * i) 0) (bytes.getD (2 * i + 1) 0) : Int) : ℚ) / 32768 := by
    rw [pcmFrames_getD _ _ _ hi, bytesToInt16LE_getD bytes i hi]
  have hb := toInt16_bounds (bytes.getD (2 * i) 0) (bytes.getD (2 * i + 1) 0)
  refine ⟨hval, hb.1, hb.2, ?_, ?_⟩
  · rw [hval, le_div_iff₀ (by norm_num : (0:ℚ) < 32768)]
    have : (-32768 : ℚ) ≤ ((toInt16 (bytes.getD (2 * i) 0) (bytes.getD (2 * i + 1) 0) : Int) : ℚ) := by
      exact_mod_cast hb.1
    linarith
  · rw [hval, div_le_one (by norm_num : (0:ℚ) < 32768)]
    have : ((toInt16 (bytes.getD (2 * i) 0) (bytes.getD (2 * i + 1) 0) : Int) : ℚ) ≤ 32767 := by
      exact_mod_cast hb.2
    linarith

/-- C4, witness for the amended statement at the two-byte input `AAA=`. -/
theorem c4_witness :
    ∃ frames : List ℚ,
      decodePCM [0, 0] 1 = Except.ok [frames] ∧
      frames.length = ([0, 0] : List Nat).length / 2 ∧
      ∀ i, i < ([0, 0] : List Nat).length / 2 →
        frames.getD i 0 =
          ((toInt16 (([0, 0] : List Nat).getD (2 * i) 0)
            (([0, 0] : List Nat).getD (2 * i + 1) 0) : Int) : ℚ) / 32768 ∧
        -32768 ≤ toInt16 (([0, 0] : List Nat).getD (2 * i) 0)
          (([0, 0] : List Nat).getD (2 * i + 1) 0) ∧
        toInt16 (([0, 0] : List Nat).getD (2 * i) 0)
          (([0, 0] : List Nat).getD (2 * i + 1) 0) ≤ 32767 ∧
        -1 ≤ frames.getD i 0 ∧ frames.getD i 0 ≤ 1 :=
  c4_theorem "AAA=" [0, 0] (by rfl) (by norm_num) (by simp)

/-- C5, confirmed: decoding an even-length PCM byte buffer and re-synthesizing
each normalized amplitude to a 16-bit integer (multiply by 32768 and round)
reproduces every original little-endian sample to within one unit — in fact
exactly, since the division is exact in the represented arithmetic. -/
theorem c5_theorem (bytes : List Nat) (out : List (List ℚ))
    (heven : bytes.length % 2 = 0)
    (hok : decodePCM bytes 1 = Except.ok out)
    (i : Nat) (hi : i < bytes.length / 2) :
    |round (((out.getD 0 []).getD i 0) * 32768) -
      toInt16 (bytes.getD (2 * i) 0) (bytes.getD (2 * i + 1) 0)| ≤ 1 := by
  obtain ⟨hout, -⟩ := decodePCM_ok_elim bytes out hok
  subst hout
  rw [List.getD_cons_zero, pcmFrames_getD _ _ _ hi, bytesToInt16LE_getD bytes i hi,
    div_mul_cancel₀ _ (by norm_num : (32768:ℚ) ≠ 0), round_intCast]
  simp

/-- C5, witness at the two-byte buffer `[0, 0]`. -/
theorem c5_witness :
    |round ((([[(0:ℚ)]] : List (List ℚ)).getD 0 []).getD 0 0 * 32768) -
      toInt16 (([0, 0] : List Nat).getD (2 * 0) 0) (([0, 0] : List Nat).getD (2 * 0 + 1) 0)| ≤ 1 :=
  c5_theorem [0, 0] [[0]] (by norm_num)
    (by norm_num [decodePCM, bytesToInt16LE, toInt16, pcmFrames, List.range_succ]) 0 (by norm_num)

/-! ## Claims about capture and visualization (C6, C9) -/

theorem foldl_ondataavailable_flatten :
    ∀ (fragments : List (List Nat)) (acc : List (List Nat)),
      (fragments.foldl ondataavailable acc).flatten = acc.flatten ++ fragments.flatten
  | [], acc => by simp
  | f :: fs, acc => by
    rw [List.foldl_cons, foldl_ondataavailable_flatten fs]
    unfold ondataavailable
    split
    · simp
    next h =>
      have hf : f = [] := by
        cases f with
        | nil => rfl
        | cons a t => simp at h
      subst hf
      simp

/-- C6, confirmed: for every sequence of fragments emitted during one capture
session (the empty sequence included), the finalized recording's bytes are the
exact concatenation of the fragments in arrival order, the blob is tagged
`audio/webm`, and zero fragments yield the valid zero-length blob. (The source
skips empty fragments, which contribute nothing to the concatenation.) -/
theorem c6_theorem (fragments : List (List Nat)) :
    (captureSession fragments).bytes = fragments.flatten ∧
    (captureSession fragments).type = "audio/webm" ∧
    (captureSession []).bytes = [] := by
  refine ⟨?_, rfl, rfl⟩
  unfold captureSession onstop
  simpa using foldl_ondataavailable_flatten fragments []

/-- C9, confirmed: on every nonempty frequency-data read, the published
loudness value is the average byte magnitude rescaled by the fixed factor 2.5
and clamped at 100, and it always lies in the range 0 to 100. -/
theorem c9_theorem (dataArray : List Nat) (h : dataArray ≠ []) :
    visualizeVolume dataArray =
      min 100 (((dataArray.foldl (· + ·) 0 : Nat) : ℚ) / (dataArray.length : ℚ) * (5 / 2)) ∧
    0 ≤ visualizeVolume dataArray ∧ visualizeVolume dataArray ≤ 100 := by
  refine ⟨rfl, ?_, min_le_left _ _⟩
  unfold visualizeVolume
  apply le_min (by norm_num)
  apply mul_nonneg (div_nonneg (by positivity) (by positivity))
  norm_num

/-- C9, witness at the three-sample read `[10, 20, 30]` (average 20, published
volume 50). -/
theorem c9_witness :
    visualizeVolume [10, 20, 30] =
      min 100 (((([10, 20, 30] : List Nat).foldl (· + ·) 0 : Nat) : ℚ) /
        (([10, 20, 30] : List Nat).length : ℚ) * (5 / 2)) ∧
    0 ≤ visualizeVolume [10, 20, 30] ∧ visualizeVolume [10, 20, 30] ≤ 100 :=
  c9_theorem [10, 20, 30] (by simp)

/-! ## Claims about the chat continuation (C2) -/

/-- C2, counterexample: sending `hello` against a transport whose stream is
obtained but fails before delivering any increment leaves the transcript with
TWO new model turns — the empty placeholder appended before iteration and the
fallback apology appended by the catch — not exactly one. -/
theorem c2_counterexample :
    handleSend [] "hello" (Transport.stream [] true) =
      [{ role := Role.user, text := "hello" }, { role := Role.model, text := "" },
       { role := Role.model, text := fallbackText }] ∧
    (handleSend [] "hello" (Transport.stream [] true)).countP
      (fun m => decide (m.role = Role.model)) = 2 := by
  constructor
  · rfl
  · rfl

/-- C2, amended: on a transport failure before any increment is delivered the
transcript always ends with the fixed fallback model turn and no increment
follows it, but the number of new model turns depends on where the failure
happens: a rejection of the stream-opening call itself adds exactly one new
model turn (the fallback), while a failure of the obtained stream adds two —
the empty placeholder and then the fallback. -/
theorem c2_theorem (messages : List ChatMsg) (input : String) (h : jsTrim input ≠ "") :
    handleSend messages input Transport.initError =
      messages ++ [{ role := Role.user, text := jsTrim input },
        { role := Role.model, text := fallbackText }] ∧
    handleSend messages input (Transport.stream [] true) =
      messages ++ [{ role := Role.user, text := jsTrim input },
        { role := Role.model, text := "" },
        { role := Role.model, text := fallbackText }] ∧
    (handleSend messages input (Transport.stream [] true)).getLast? =
      some { role := Role.model, text := fallbackText } := by
  refine ⟨?_, ?_, ?_⟩
  · simp [handleSend, h]
  · simp [handleSend, h, deliverChunks]
  · simp [handleSend, h, deliverChunks, List.getLast?_concat]

/-- C2, witness for the amended statement at the send of `hello` into the
empty transcript. -/
theorem c2_witness :
    handleSend [] "hello" Transport.initError =
      ([] : List ChatMsg) ++ [{ role := Role.user, text := jsTrim "hello" },
        { role := Role.model, text := fallbackText }] ∧
    handleSend [] "hello" (Transport.stream [] true) =
      ([] : List ChatMsg) ++ [{ role := Role.user, text := jsTrim "hello" },
        { role := Role.model, text := "" },
        { role := Role.model, text := fallbackText }] ∧
    (handleSend [] "hello" (Transport.stream [] true)).getLast? =
      some { role := Role.model, text := fallbackText } :=
  c2_theorem [] "hello" (by decide)

/-! ## Claims about the orchestrator (C3) -/

/-- C3, counterexample: when the analyze call raises an error whose message is
the empty string, the surfaced user-facing message is the fixed default text,
not the raised error's message verbatim (the JavaScript `||` treats the empty
message as falsy). -/
theorem c3_counterexample :
    (handleProcessDream { isProcessing := false, error := none, dreamData := none,
                           loadingStep := "" } 0 (Except.error { message := "" })
        (fun _ => Except.ok "url")).error = some defaultErrorText ∧
    defaultErrorText ≠ "" := by
  constructor
  · rfl
  · decide

/-- C3, amended: whenever the analyze call or the image call raises an error,
the stored dream record is left unchanged (no partial record is stored), the
processing flag and loading step are cleared, and the single user-facing error
message is the raised error's message — verbatim when it is nonempty, and the
fixed default text when the message is empty. -/
theorem c3_theorem (s : AppState) (now : Nat)
    (analyze : Except JSError DreamAnalysisResult)
    (genImage : DreamAnalysisResult → Except JSError String) (e : JSError)
    (h : analyze = Except.error e ∨
      ∃ a, analyze = Except.ok a ∧ genImage a = Except.error e) :
    (handleProcessDream s now analyze genImage).dreamData = s.dreamData ∧
    (handleProcessDream s now analyze genImage).isProcessing = false ∧
    (handleProcessDream s now analyze genImage).loadingStep = "" ∧
    (handleProcessDream s now analyze genImage).error = some (surfaceError e) := by
  rcases h with h | ⟨a, ha, hg⟩
  · subst h
    exact ⟨rfl, rfl, rfl, rfl⟩
  · subst ha
    simp [handleProcessDream, hg]

/-- C3, witness: the analyze call fails with message `boom` from the idle
state; the record stays absent, processing is cleared, and `boom` is surfaced
verbatim. -/
theorem c3_witness :
    (handleProcessDream { isProcessing := false, error := none, dreamData := none,
                           loadingStep := "" } 0 (Except.error { message := "boom" })
        (fun _ => Except.ok "url")).dreamData =
      ({ isProcessing := false, error := none, dreamData := none,
                           loadingStep := "" } : AppState).dreamData ∧
    (handleProcessDream { isProcessing := false, error := none, dreamData := none,
                           loadingStep := "" } 0 (Except.error { message := "boom" })
        (fun _ => Except.ok "url")).isProcessing = false ∧
    (handleProcessDream { isProcessing := false, error := none, dreamData := none,
                           loadingStep := "" } 0 (Except.error { message := "boom" })
        (fun _ => Except.ok "url")).loadingStep = "" ∧
    (handleProcessDream { isProcessing := false, error := none, dreamData := none,
                           loadingStep := "" } 0 (Except.error { message := "boom" })
        (fun _ => Except.ok "url")).error = some (surfaceError { message := "boom" }) :=
  c3_theorem _ 0 _ _ { message := "boom" } (Or.inl rfl)

/-! ## Claims about playback failure and cancellation (C7, C8) -/

/-- C7, confirmed: whenever the decode stage or the device acquisition fails,
`playDreamSpeech` still returns normally (the model is total), has invoked
`onEnded` exactly once, has closed the audio context, and hands back the no-op
stop function, whose application changes nothing. -/
theorem c7_theorem (base64Audio : String) (device : DeviceStep)
    (h : decodeFails base64Audio ∨ device = DeviceStep.fail) :
    playDreamSpeech base64Audio device =
      ({ sourceStarted := false, sourceStopped := false, ctxClosed := true,
         onEndedCount := 1 }, StopKind.noop) ∧
    ∀ s : PlaybackState, applyStop StopKind.noop s = s := by
  refine ⟨?_, fun s => rfl⟩
  unfold decodeFails at h
  rcases h with (hnone | ⟨bytes, hsome, e, herr⟩) | hdev
  · simp [playDreamSpeech, playBody, hnone]
  · simp [playDreamSpeech, playBody, hsome, herr]
  · subst hdev
    cases hdb : decodeBase64 base64Audio with
    | none => simp [playDreamSpeech, playBody, hdb]
    | some bytes =>
      cases hpcm : decodePCM bytes 1 with
      | error e => simp [playDreamSpeech, playBody, hdb, hpcm]
      | ok v => simp [playDreamSpeech, playBody, hdb, hpcm]

/-- C7, witness at the empty base64 input: it decodes to zero bytes, the
zero-frame buffer creation fails, `onEnded` runs once and the no-op stop is
returned. -/
theorem c7_witness :
    playDreamSpeech "" DeviceStep.ok =
      ({ sourceStarted := false, sourceStopped := false, ctxClosed := true,
         onEndedCount := 1 }, StopKind.noop) ∧
    ∀ s : PlaybackState, applyStop StopKind.noop s = s :=
  c7_theorem "" DeviceStep.ok
    (Or.inl (Or.inr ⟨[], rfl, "NotSupportedError",
      by norm_num [decodePCM, bytesToInt16LE]⟩))

/-- C8, confirmed: whichever stop function `playDreamSpeech` returns, applying
it twice from any playback state equals applying it once, a single application
never runs the `onEnded` callback, and the same idempotence holds from a state
reached by natural completion — so a second invocation (also after the
playback already ended) neither re-fires the callback nor changes the
released-resource state further, and its totality models that it never
throws. -/
theorem c8_theorem (base64Audio : String) (device : DeviceStep) (s : PlaybackState) :
    applyStop (playDreamSpeech base64Audio device).2
        (applyStop (playDreamSpeech base64Audio device).2 s) =
      applyStop (playDreamSpeech base64Audio device).2 s ∧
    (applyStop (playDreamSpeech base64Audio device).2 s).onEndedCount = s.onEndedCount ∧
    applyStop (playDreamSpeech base64Audio device).2
        (applyStop (playDreamSpeech base64Audio device).2 (naturalEnd s)) =
      applyStop (playDreamSpeech base64Audio device).2 (naturalEnd s) := by
  have key : ∀ (k : StopKind) (t : PlaybackState),
      applyStop k (applyStop k t) = applyStop k t ∧
      (applyStop k t).onEndedCount = t.onEndedCount := by
    intro k t
    cases k with
    | noop => exact ⟨rfl, rfl⟩
    | real =>
      unfold applyStop sourceStopCall ctxCloseCall
      by_cases hs : t.sourceStarted
      · simp [hs]
      · simp [hs]
  exact ⟨(key _ s).1, (key _ s).2, (key _ (naturalEnd s)).1⟩

/-! ## Claim about the speech-synthesis input (C10) -/

theorem mem_splitLink (rest label rest4 : List Char)
    (h : splitLink rest = some (label, rest4)) :
    (∀ c, c ∈ label → c ∈ rest) ∧ (∀ c, c ∈ rest4 → c ∈ rest) := by
  unfold splitLink at h
  split at h
  · exact absurd h (by simp)
  · split at h
    case _ rest2 heq1 =>
      split at h
      · exact absurd h (by simp)
      · split at h
        case _ rest4' heq2 =>
          rw [Option.some.injEq, Prod.mk.injEq] at h
          obtain ⟨hlabel, hrest4⟩ := h
          constructor
          · intro c hc
            rw [← hlabel] at hc
            exact (List.takeWhile_sublist _).subset hc
          · intro c hc
            rw [← hrest4] at hc
            have h1 : c ∈ rest2.dropWhile (fun c => c ≠ ')') := by
              rw [heq2]
              exact List.mem_cons_of_mem _ hc
            have h2 : c ∈ rest2 := (List.dropWhile_sublist _).subset h1
            have h3 : c ∈ rest.dropWhile (fun c => c ≠ ']') := by
              rw [heq1]
              exact List.mem_cons_of_mem _ (List.mem_cons_of_mem _ h2)
            exact (List.dropWhile_sublist _).subset h3
        · exact absurd h (by simp)
    · exact absurd h (by simp)

theorem mem_replaceLinksAux :
    ∀ (fuel : Nat) (s : List Char) (c : Char), c ∈ replaceLinksAux fuel s → c ∈ s
  | 0, _, _, h => h
  | _ + 1, [], c, h => by simp [replaceLinksAux] at h
  | fuel + 1, a :: rest, c, h => by
    unfold replaceLinksAux at h
    by_cases ha : a = '['
    · rw [if_pos ha] at h
      cases hsl : splitLink rest with
      | none =>
        rw [hsl] at h
        rcases List.mem_cons.mp h with h1 | h2
        · exact h1 ▸ List.mem_cons_self _ _
        · exact List.mem_cons_of_mem _ (mem_replaceLinksAux fuel rest c h2)
      | some p =>
        obtain ⟨label, rest4⟩ := p
        rw [hsl] at h
        rcases List.mem_append.mp h with h1 | h2
        · exact List.mem_cons_of_mem _ ((mem_splitLink rest label rest4 hsl).1 c h1)
        · exact List.mem_cons_of_mem _ ((mem_splitLink rest label rest4 hsl).2 c
            (mem_replaceLinksAux fuel rest4 c h2))
    · rw [if_neg ha] at h
      rcases List.mem_cons.mp h with h1 | h2
      · exact h1 ▸ List.mem_cons_self _ _
      · exact List.mem_cons_of_mem _ (mem_replaceLinksAux fuel rest c h2)

theorem mem_collapseNewlinesAux :
    ∀ (s : List Char) (b : Bool) (c : Char),
      c ∈ collapseNewlinesAux s b → c ∈ s ∨ c = '。'
  | [], _, c, h => by simp [collapseNewlinesAux] at h
  | a :: rest, b, c, h => by
    unfold collapseNewlinesAux at h
    by_cases ha : a = '\n'
    · rw [if_pos ha] at h
      by_cases hb : b = true
      · rw [if_pos hb] at h
        rcases mem_collapseNewlinesAux rest true c h with h1 | h1
        · exact Or.inl (List.mem_cons_of_mem _ h1)
        · exact Or.inr h1
      · rw [if_neg hb] at h
        rcases List.mem_cons.mp h with h1 | h1
        · exact Or.inr h1
        · rcases mem_collapseNewlinesAux rest true c h1 with h2 | h2
          · exact Or.inl (List.mem_cons_of_mem _ h2)
          · exact Or.inr h2
    · rw [if_neg ha] at h
      rcases List.mem_cons.mp h with h1 | h1
      · exact Or.inl (h1 ▸ List.mem_cons_self _ _)
      · rcases mem_collapseNewlinesAux rest false c h1 with h2 | h2
        · exact Or.inl (List.mem_cons_of_mem _ h2)
        · exact Or.inr h2

/-- C10, confirmed: the text submitted to the speech synthesizer is exactly
the input with formatting characters removed, then link markup reduced to its
link text, then newline runs replaced by the pause character, truncated to its
first 3000 characters; it never exceeds 3000 characters, the part beyond the
limit is dropped (submitted text plus dropped tail reassemble the cleaned
text), and no markdown formatting character survives into it. -/
theorem c10_theorem (text : List Char) :
    generateDreamSpeechText text =
      (collapseNewlines (replaceLinks (removeFormatting text))).take 3000 ∧
    (generateDreamSpeechText text).length ≤ 3000 ∧
    generateDreamSpeechText text ++ (stripMarkdown text).drop 3000 = stripMarkdown text ∧
    (generateDreamSpeechText text).all (fun c => !isFormattingChar c) = true := by
  refine ⟨rfl, ?_, ?_, ?_⟩
  · simp [generateDreamSpeechText]
  · exact List.take_append_drop 3000 (stripMarkdown text)
  · rw [List.all_eq_true]
    intro c hc
    have hc' : c ∈ (stripMarkdown text).take 3000 := hc
    have h1 : c ∈ stripMarkdown text := List.take_subset _ _ hc'
    unfold stripMarkdown collapseNewlines at h1
    rcases mem_collapseNewlinesAux _ _ _ h1 with h2 | h2
    · unfold replaceLinks at h2
      have h3 := mem_replaceLinksAux _ _ _ h2
      unfold removeFormatting at h3
      have h4 := List.mem_filter.mp h3
      simpa using h4.2
    · subst h2
      decide

end Dream
